import Mathlib

/-!
Verification development for the rssant feed library core: the story/feed
parser pipeline of rssant_feedlib/parser.py (checksum filtering, field
normalization, schema validation) and the fetcher contract exercised by
tests/feedlib/test_reader.py. Python strings are embedded as lists of
characters, so slicing and length are character based exactly as in Python.
Components of the repository that are only referenced from the sources at
hand (feed_checksum.py, processor.py, the validr schema compiler and the
reader modules) are modelled from the specification; each such definition
carries a doc comment saying so.
-/

/-- A Python string, embedded as its list of characters. -/
abbrev Str := List Char

/-- A byte payload, embedded as a list of byte values. -/
abbrev Bytes := List Nat

/-- Modelled from the spec: the content hash used by FeedChecksum.update
(feed_checksum.py is not under src). The spec only requires a stable,
collision-resistant hash of the content bytes, so the hash is modelled as
the content itself, which is stable and collision free. -/
def contentHash (content : Str) : Str := content

/-- Lookup of the stored hash for an ident in the checksum mapping. -/
def lookupHash : List (Str × Str) → Str → Option Str
  | [], _ => none
  | (k, v) :: rest, i => if k = i then some v else lookupHash rest i

/-- Store a hash under an ident, replacing an existing entry for that ident. -/
def setHash : List (Str × Str) → Str → Str → List (Str × Str)
  | [], i, h => [(i, h)]
  | (k, v) :: rest, i, h => if k = i then (i, h) :: rest else (k, v) :: setHash rest i h

/-- Modelled from the spec: FeedChecksum (feed_checksum.py is not under src)
owns a mapping from story ident to content hash. -/
structure FeedChecksum where
  map : List (Str × Str)
deriving DecidableEq

/-- A FeedChecksum with no entries, as built by the FeedChecksum constructor. -/
def FeedChecksum.empty : FeedChecksum := ⟨[]⟩

/-- Modelled from the spec: FeedChecksum.copy produces an independent snapshot
with value semantics; on the value level it is the identity. -/
def FeedChecksum.copy (c : FeedChecksum) : FeedChecksum := c

/-- Modelled from the spec: FeedChecksum.update computes the hash of the
content, compares it with the hash stored for the ident, records the new hash
and reports whether the story is new or changed. -/
def FeedChecksum.update (c : FeedChecksum) (ident content : Str) : Bool × FeedChecksum :=
  let h := contentHash content
  match lookupHash c.map ident with
  | some h0 => if h0 = h then (false, c) else (true, ⟨setHash c.map ident h⟩)
  | none => (true, ⟨setHash c.map ident h⟩)

/-- Lookup the stored hash for an ident in a FeedChecksum. -/
def FeedChecksum.lookup (c : FeedChecksum) (ident : Str) : Option Str :=
  lookupHash c.map ident

/-- Modelled from the spec: a raw story record as produced by the external
feed tokenizer (raw_parser.py is not under src). Fields are untyped strings;
an absent value is the empty string, which Python truthiness treats the same
way. Date fields are opaque optional values passed through unchanged. -/
structure RawStory where
  ident : Str
  title : Str
  url : Str
  content : Str
  summary : Str
  image_url : Str
  dt_published : Option Nat
  dt_updated : Option Nat
  author_name : Str
  author_url : Str
  author_avatar_url : Str
deriving DecidableEq

/-- Modelled from the spec: a raw feed record as produced by the external
feed tokenizer (raw_parser.py is not under src). -/
structure RawFeed where
  version : Str
  title : Str
  url : Str
  home_url : Str
  icon_url : Str
  description : Str
  dt_updated : Option Nat
  author_name : Str
  author_url : Str
  author_avatar_url : Str
deriving DecidableEq

/-- Modelled from the spec: RawFeedResult, the external boundary input of the
parser, a raw feed record plus an ordered sequence of raw story records. -/
structure RawFeedResult where
  feed : RawFeed
  storys : List RawStory
deriving DecidableEq

/-- Modelled from the spec: the signatures of the text and URL processing
helpers of processor.py and rssant_api.helper.shorten, none of which are under
src. The parser uses them as black boxes, so they are carried as explicit
function parameters: story_html_clean sanitizes HTML, story_html_to_text
flattens HTML to plain text, process_story_links rewrites links in content
against a base URL, normlize_url normalizes a URL against a base URL and
returns none when no URL can be produced, validate_url returns none exactly
when the URL is invalid (the Invalid exception branch), story_has_mathjax
detects math markup, and shorten truncates text with ellipsis to a width. -/
structure Processor where
  story_html_clean : Str → Str
  story_html_to_text : Str → Str
  process_story_links : Str → Str → Str
  normlize_url : Str → Str → Option Str
  validate_url : Option Str → Option Str
  story_has_mathjax : Str → Bool
  shorten : Str → Nat → Str

/-- A feed record after FeedParser._parse_feed. -/
structure ParsedFeed where
  version : Str
  title : Str
  url : Str
  home_url : Option Str
  icon_url : Option Str
  description : Str
  dt_updated : Option Nat
  author_name : Str
  author_url : Option Str
  author_avatar_url : Option Str
deriving DecidableEq

/-- A story record after FeedParser._parse_story. -/
structure ParsedStory where
  ident : Str
  title : Str
  url : Option Str
  content : Str
  summary : Str
  has_mathjax : Bool
  image_url : Option Str
  dt_published : Option Nat
  dt_updated : Option Nat
  author_name : Str
  author_url : Option Str
  author_avatar_url : Option Str
deriving DecidableEq

/-- A field name of the Feed or Story schema, used to report which field a
validation error is about. -/
inductive SchemaField where
  | ident
  | title
  | url
  | summary
  | author_name
  | version
  | description
deriving DecidableEq

/-- A parser error as raised by FeedParser._validate_result: an Invalid error
on the feed record, or on the story at a given index (mark_index). -/
inductive FPError where
  | feed (field : SchemaField)
  | story (index : Nat) (field : SchemaField)
deriving DecidableEq

/-- FeedResult: the validated feed, the ordered validated storys and the
checksum advanced during this parse, from parser.py. -/
structure FeedResult where
  feed : ParsedFeed
  storys : List ParsedStory
  checksum : FeedChecksum
deriving DecidableEq

/-- FeedParser._parse_feed from parser.py: normalize the feed record against
its own url. -/
def parseFeed (p : Processor) (feed : RawFeed) : ParsedFeed :=
  let url := feed.url
  let title := (p.story_html_to_text feed.title).take 200
  let home_url := p.normlize_url feed.home_url url
  let icon_url := p.normlize_url feed.icon_url url
  let description := (p.story_html_to_text feed.description).take 300
  let author_name := (p.story_html_to_text feed.author_name).take 100
  let author_url := p.normlize_url feed.author_url url
  let author_avatar_url := p.normlize_url feed.author_avatar_url url
  { version := feed.version, title := title, url := url, home_url := home_url,
    icon_url := icon_url, description := description, dt_updated := feed.dt_updated,
    author_name := author_name, author_url := author_url,
    author_avatar_url := author_avatar_url }

/-- FeedParser._process_content from parser.py: clean the HTML content, and
when the cleaned content has 1024 * 1024 characters or more, log a warning and
keep only the plain text; then rewrite story links against the story link.
The returned Bool records whether the size warning was logged. -/
def processContent (p : Processor) (content : Str) (link : Str) : Str × Bool :=
  let cleaned := p.story_html_clean content
  let oversize := 1024 * 1024 ≤ cleaned.length
  let downgraded := if oversize then p.story_html_to_text cleaned else cleaned
  (p.process_story_links downgraded link, oversize)

/-- FeedParser._parse_story from parser.py: truncate the ident to 200
characters, normalize the url falling back to the ident when the raw url is
blank, validate it treating the Invalid exception as absence, then normalize
the remaining fields against the resolved base url. -/
def parseStory (p : Processor) (story : RawStory) (feed_url : Str) : ParsedStory :=
  let ident := story.ident.take 200
  let title := (p.story_html_to_text story.title).take 200
  let url := p.normlize_url (if story.url = [] then story.ident else story.url) feed_url
  let valid_url := p.validate_url url
  let base_url := valid_url.getD feed_url
  let image_url := p.normlize_url story.image_url base_url
  let author_name := (p.story_html_to_text story.author_name).take 100
  let author_url := p.normlize_url story.author_url base_url
  let author_avatar_url := p.normlize_url story.author_avatar_url base_url
  let content := (processContent p story.content base_url).1
  let summary := p.shorten (p.story_html_to_text (p.story_html_clean story.summary)) 300
  let has_mathjax := p.story_has_mathjax content
  { ident := ident, title := title, url := valid_url, content := content,
    summary := summary, has_mathjax := has_mathjax, image_url := image_url,
    dt_published := story.dt_published, dt_updated := story.dt_updated,
    author_name := author_name, author_url := author_url,
    author_avatar_url := author_avatar_url }

/-- Modelled from the spec: the validr check for the story url field of
StorySchema, T.url.optional; an absent url is accepted, a present url must be
valid, otherwise the whole record is Invalid (a hard failure). -/
def validateOptUrlHard (p : Processor) (u : Option Str) : Except SchemaField (Option Str) :=
  match u with
  | none => Except.ok none
  | some v =>
    match p.validate_url (some v) with
    | none => Except.error SchemaField.url
    | some v2 => Except.ok (some v2)

/-- Modelled from the spec: the compiled validr StorySchema validator
(rssant_common/validator and the validr library are not under src).
Required fields with maxlen bounds fail hard when too long; the optional url
must be valid when present; soft-optional URL fields with invalid_to_default
degrade to absent when invalid instead of failing. -/
def validateStory (p : Processor) (s : ParsedStory) : Except SchemaField ParsedStory :=
  if 200 < s.ident.length then Except.error SchemaField.ident
  else if 200 < s.title.length then Except.error SchemaField.title
  else
    match validateOptUrlHard p s.url with
    | Except.error e => Except.error e
    | Except.ok url =>
      if 300 < s.summary.length then Except.error SchemaField.summary
      else if 100 < s.author_name.length then Except.error SchemaField.author_name
      else
        Except.ok
          { s with
            url := url,
            image_url := p.validate_url s.image_url,
            author_url := p.validate_url s.author_url,
            author_avatar_url := p.validate_url s.author_avatar_url }

/-- Modelled from the spec: the compiled validr FeedSchema validator. The feed
url is required and must be valid; version, title, description and author_name
carry maxlen bounds; the soft-optional URL fields degrade to absent. -/
def validateFeed (p : Processor) (f : ParsedFeed) : Except SchemaField ParsedFeed :=
  if 200 < f.version.length then Except.error SchemaField.version
  else if 200 < f.title.length then Except.error SchemaField.title
  else
    match p.validate_url (some f.url) with
    | none => Except.error SchemaField.url
    | some url =>
      if 300 < f.description.length then Except.error SchemaField.description
      else if 100 < f.author_name.length then Except.error SchemaField.author_name
      else
        Except.ok
          { f with
            url := url,
            home_url := p.validate_url f.home_url,
            icon_url := p.validate_url f.icon_url,
            author_url := p.validate_url f.author_url,
            author_avatar_url := p.validate_url f.author_avatar_url }

/-- The story loop of FeedParser._validate_result: validate each story in
order, reporting the index of the first invalid story via mark_index. -/
def validateStorys (p : Processor) : List ParsedStory → Nat → Except FPError (List ParsedStory)
  | [], _ => Except.ok []
  | s :: rest, i =>
    match validateStory p s with
    | Except.error f => Except.error (FPError.story i f)
    | Except.ok vs =>
      match validateStorys p rest (i + 1) with
      | Except.error e => Except.error e
      | Except.ok vrest => Except.ok (vs :: vrest)

/-- FeedParser._validate_result from parser.py: validate the feed record and
every story record, keeping the checksum of the input result. -/
def validateResult (p : Processor) (r : FeedResult) : Except FPError FeedResult :=
  match validateFeed p r.feed with
  | Except.error f => Except.error (FPError.feed f)
  | Except.ok vf =>
    match validateStorys p r.storys 0 with
    | Except.error e => Except.error e
    | Except.ok vs => Except.ok ⟨vf, vs, r.checksum⟩

/-- The FeedParser state: the internally held checksum and the validate flag. -/
structure FeedParser where
  checksum : FeedChecksum
  validate : Bool
deriving DecidableEq

/-- FeedParser.__init__ from parser.py: a missing checksum becomes a fresh
empty one, a given checksum is copied before being stored. -/
def FeedParser.init (checksum : Option FeedChecksum) (validate : Bool) : FeedParser :=
  match checksum with
  | none => ⟨FeedChecksum.empty, validate⟩
  | some c => ⟨c.copy, validate⟩

/-- FeedParser._check_update_storys from parser.py: run checksum.update on
each raw story ident and content in order (a None content counts as the empty
string, which the Str embedding already is) and retain exactly the stories
reported new or changed. Returns the retained stories and the advanced
checksum. -/
def checkUpdateStorys (c : FeedChecksum) : List RawStory → List RawStory × FeedChecksum
  | [] => ([], c)
  | s :: rest =>
    let step := c.update s.ident s.content
    let next := checkUpdateStorys step.2 rest
    (if step.1 then s :: next.1 else next.1, next.2)

/-- FeedParser.parse from parser.py: filter the raw stories through the
checksum, normalize the feed and the retained stories, and validate the
result when the validate flag is set. The parser state with the advanced
checksum is returned alongside, since the Python method mutates
self._checksum even when validation later fails. -/
def FeedParser.parse (p : Processor) (fp : FeedParser) (raw : RawFeedResult) :
    Except FPError FeedResult × FeedParser :=
  let checked := checkUpdateStorys fp.checksum raw.storys
  let fp1 : FeedParser := ⟨checked.2, fp.validate⟩
  let feed := parseFeed p raw.feed
  let storys := checked.1.map (fun s => parseStory p s feed.url)
  let result : FeedResult := ⟨feed, storys, checked.2⟩
  if fp.validate then
    match validateResult p result with
    | Except.ok r => (Except.ok r, fp1)
    | Except.error e => (Except.error e, fp1)
  else (Except.ok result, fp1)

/-- A cell identifier in the explicit object store used to reason about
aliasing of FeedChecksum objects. -/
abbrev CellId := Nat

/-- An explicit store of FeedChecksum objects: Python object identity is a
cell index, the cell content is the checksum value. -/
abbrev Store := List FeedChecksum

/-- Read the checksum object held by a cell. -/
def Store.readCell (st : Store) (r : CellId) : FeedChecksum :=
  st.getD r FeedChecksum.empty

/-- Overwrite the checksum object held by a cell. -/
def Store.writeCell (st : Store) (r : CellId) (v : FeedChecksum) : Store :=
  st.set r v

/-- Allocate a new cell holding the given checksum value; the new cell is
distinct from every existing cell. -/
def Store.allocCell (st : Store) (v : FeedChecksum) : Store × CellId :=
  (st ++ [v], st.length)

/-- A FeedParser object: the cell of its private checksum and the validate
flag. -/
structure ParserObj where
  cell : CellId
  validate : Bool
deriving DecidableEq

/-- FeedParser.__init__ from parser.py over the explicit object store: with no
checksum a fresh empty one is allocated, with a checksum object the parser
stores a copy of it in a newly allocated cell, so the private checksum is a
distinct object from the argument. -/
def initParserObj (st : Store) (checksum : Option CellId) (validate : Bool) :
    Store × ParserObj :=
  match checksum with
  | none =>
    let a := Store.allocCell st FeedChecksum.empty
    (a.1, ⟨a.2, validate⟩)
  | some c =>
    let a := Store.allocCell st (Store.readCell st c).copy
    (a.1, ⟨a.2, validate⟩)

/-- FeedParser.parse from parser.py over the explicit object store: the parse
reads the parser private checksum cell, runs the pure parse, and writes the
advanced checksum back into that same cell (the only write the method
performs). -/
def parseObj (p : Processor) (st : Store) (po : ParserObj) (raw : RawFeedResult) :
    Store × Except FPError FeedResult :=
  let fp : FeedParser := ⟨Store.readCell st po.cell, po.validate⟩
  let out := fp.parse p raw
  (Store.writeCell st po.cell out.2.checksum, out.1)

/-- A fetch outcome status: a literal upstream HTTP-like status code, or one
of the sentinel failure kinds of FeedResponseStatus. Modelled from the spec:
reader.py is not under src; sentinels never collide with integer codes. -/
inductive StatusCode where
  | http (code : Nat)
  | privateAddressError
  | contentTypeNotSupportError
  | rssProxyError
  | dnsError
  | connectionError
  | timeoutError
deriving DecidableEq

/-- Modelled from the spec: FetchResponse with raw byte content, the detected
encoding and the sniffed feed type. -/
structure FetchResponse where
  status : StatusCode
  url : Str
  content : Bytes
  encoding : Option Str
  feed_type : Option Str
deriving DecidableEq

/-- Modelled from the spec: the option set of the FeedReader.read operation; the
proxy_configured flag stands for a configured rss_proxy_url and token. -/
structure FetchOptions where
  use_proxy : Bool
  allow_private_address : Bool
  allow_non_webpage : Bool
  proxy_configured : Bool
deriving DecidableEq

/-- Modelled from the spec: the relay response envelope of the proxy relay
wire protocol; the dedicated status header carries either the literal ERROR
marker, in which case the body is relay diagnostic text, or a numeric status,
in which case the body is the real upstream body. -/
inductive RelayResponse where
  | error (diagnostic : Bytes)
  | status (code : Nat) (body : Bytes)
deriving DecidableEq

/-- Modelled from the spec: the upstream response a direct request would
observe, a status code of any integer value and the raw body bytes. -/
structure Upstream where
  status : Nat
  body : Bytes
deriving DecidableEq

/-- Modelled from the spec: the pure local components ContentSniffer and
EncodingDetector as black-box functions of the payload; classify returns
whether the payload is a supported webpage or feed family together with the
feed family, detect returns the best-effort encoding name. The declared
content-type header that accompanies a payload is folded into these
functions. -/
structure Sniffer where
  classify : Bytes → Bool × Option Str
  detect : Bytes → Str

/-- Modelled from the spec: the fixed facts of the outside world for one
fetch. url_private says whether the resolved address of the target is
private, loopback, link-local or otherwise non-routable (the AddressGuard
classification); upstream is what a direct request returns; relay is what the
configured proxy relay returns for the target. -/
structure World where
  url : Str
  url_private : Bool
  upstream : Upstream
  relay : RelayResponse

/-- A network request action performed by a fetch; host resolution is not a
request (spec section 4.1: the address check happens before any request is
sent). -/
inductive NetAction where
  | direct
  | proxied
deriving DecidableEq

/-- Modelled from the spec: the blocking FeedReader.read operation of the Fetcher
(reader.py is not under src), following the algorithm of spec section 4.2:
delegate to the proxy relay when requested and configured, otherwise enforce
the address guard before any request, then the content-type guard, and
otherwise pass the upstream status and body through verbatim enriched with
encoding and feed type. The second component is the list of requests sent. -/
def FeedReader.read (sn : Sniffer) (w : World) (o : FetchOptions) : FetchResponse × List NetAction :=
  if o.use_proxy && o.proxy_configured then
    match w.relay with
    | RelayResponse.error _ =>
      ({ status := StatusCode.rssProxyError, url := w.url, content := [],
         encoding := none, feed_type := none }, [NetAction.proxied])
    | RelayResponse.status code body =>
      if !(sn.classify body).1 && !o.allow_non_webpage then
        ({ status := StatusCode.contentTypeNotSupportError, url := w.url, content := [],
           encoding := none, feed_type := (sn.classify body).2 }, [NetAction.proxied])
      else
        ({ status := StatusCode.http code, url := w.url, content := body,
           encoding := some (sn.detect body), feed_type := (sn.classify body).2 },
         [NetAction.proxied])
  else if w.url_private && !o.allow_private_address then
    ({ status := StatusCode.privateAddressError, url := w.url, content := [],
       encoding := none, feed_type := none }, [])
  else
    if !(sn.classify w.upstream.body).1 && !o.allow_non_webpage then
      ({ status := StatusCode.contentTypeNotSupportError, url := w.url, content := [],
         encoding := none, feed_type := (sn.classify w.upstream.body).2 },
       [NetAction.direct])
    else
      ({ status := StatusCode.http w.upstream.status, url := w.url,
         content := w.upstream.body, encoding := some (sn.detect w.upstream.body),
         feed_type := (sn.classify w.upstream.body).2 }, [NetAction.direct])

/-- A fetch computation with its I/O boundaries made explicit: it either is
done, or waits on host resolution, a direct request, or a proxy relay
request. This is the suspend-capable form of the FeedReader.read algorithm. -/
inductive FetchProg (α : Type) where
  | done (a : α)
  | resolveHost (k : Bool → FetchProg α)
  | directRequest (k : Upstream → FetchProg α)
  | proxyRequest (k : RelayResponse → FetchProg α)

/-- The blocking interpreter of a fetch computation: answer every I/O wait
immediately from the world and run to completion. -/
def runSync {α : Type} (w : World) : FetchProg α → α
  | FetchProg.done a => a
  | FetchProg.resolveHost k => runSync w (k w.url_private)
  | FetchProg.directRequest k => runSync w (k w.upstream)
  | FetchProg.proxyRequest k => runSync w (k w.relay)

/-- One scheduling step of the suspend-capable interpreter: either the
computation is done, or exactly one pending I/O wait is answered and the
resumed computation is handed back to the scheduler. -/
def stepFetch {α : Type} (w : World) : FetchProg α → Sum α (FetchProg α)
  | FetchProg.done a => Sum.inl a
  | FetchProg.resolveHost k => Sum.inr (k w.url_private)
  | FetchProg.directRequest k => Sum.inr (k w.upstream)
  | FetchProg.proxyRequest k => Sum.inr (k w.relay)

/-- The suspend-capable interpreter: repeatedly step the computation,
suspending and resuming at each I/O boundary, for at most the given number of
steps. -/
def runAsync {α : Type} (w : World) : Nat → FetchProg α → Option α
  | 0, _ => none
  | Nat.succ fuel, prog =>
    match stepFetch w prog with
    | Sum.inl a => some a
    | Sum.inr next => runAsync w fuel next

/-- Modelled from the spec: the FeedReader.read algorithm of spec section 4.2 written as
a suspend-capable computation (async_reader.py is not under src), suspending
exactly at the I/O boundaries and otherwise performing the same local
decisions as the blocking FeedReader.read. -/
def readProg (sn : Sniffer) (url : Str) (o : FetchOptions) : FetchProg FetchResponse :=
  if o.use_proxy && o.proxy_configured then
    FetchProg.proxyRequest fun r =>
      FetchProg.done
        (match r with
         | RelayResponse.error _ =>
           { status := StatusCode.rssProxyError, url := url, content := [],
             encoding := none, feed_type := none }
         | RelayResponse.status code body =>
           if !(sn.classify body).1 && !o.allow_non_webpage then
             { status := StatusCode.contentTypeNotSupportError, url := url, content := [],
               encoding := none, feed_type := (sn.classify body).2 }
           else
             { status := StatusCode.http code, url := url, content := body,
               encoding := some (sn.detect body), feed_type := (sn.classify body).2 })
  else
    FetchProg.resolveHost fun priv =>
      if priv && !o.allow_private_address then
        FetchProg.done
          { status := StatusCode.privateAddressError, url := url, content := [],
            encoding := none, feed_type := none }
      else
        FetchProg.directRequest fun u =>
          FetchProg.done
            (if !(sn.classify u.body).1 && !o.allow_non_webpage then
               { status := StatusCode.contentTypeNotSupportError, url := url, content := [],
                 encoding := none, feed_type := (sn.classify u.body).2 }
             else
               { status := StatusCode.http u.status, url := url, content := u.body,
                 encoding := some (sn.detect u.body), feed_type := (sn.classify u.body).2 })

/-- A concrete Processor used to evaluate the development on concrete
inputs: cleaning and flattening are the identity, link rewriting returns the
content unchanged, url normalization returns the url unless it is blank,
every url is accepted as valid, math detection is constant false, and shorten
truncates to the requested width. -/
def trivialProcessor : Processor where
  story_html_clean := fun s => s
  story_html_to_text := fun s => s
  process_story_links := fun c _ => c
  normlize_url := fun u _ => if u = [] then none else some u
  validate_url := fun u => u
  story_has_mathjax := fun _ => false
  shorten := fun s w => s.take w

/-- The contracts of the black-box processing helpers that schema validation
relies on: shorten truncates to at most the requested width, and a value
returned by validate_url is itself a valid url, so revalidating it succeeds
unchanged. -/
structure Processor.Wf (p : Processor) : Prop where
  shorten_le : ∀ s w, (p.shorten s w).length ≤ w
  validate_url_stable : ∀ u v, p.validate_url u = some v → p.validate_url (some v) = some v

/-- A raw feed record with a short valid url, used in concrete evaluations. -/
def feed0 : RawFeed :=
  { version := ['v'], title := ['t'], url := ['u'], home_url := [], icon_url := [],
    description := [], dt_updated := none, author_name := [], author_url := [],
    author_avatar_url := [] }

/-- A raw story template used in concrete evaluations. -/
def story0 : RawStory :=
  { ident := ['i'], title := ['t'], url := [], content := ['c'], summary := [],
    image_url := [], dt_published := none, dt_updated := none, author_name := [],
    author_url := [], author_avatar_url := [] }

/-- An ident of 201 characters, one more than the schema bound of 200. -/
def longIdent : Str := List.replicate 201 'a'

/-- A raw story whose ident is longer than 200 characters. -/
def cexStory : RawStory := { story0 with ident := longIdent }

/-- A raw feed result holding one story whose ident is longer than 200
characters. -/
def cexRaw : RawFeedResult := ⟨feed0, [cexStory]⟩

/-- A raw feed result with two stories sharing one ident but with different
contents. -/
def dupIdentRaw : RawFeedResult :=
  ⟨feed0, [{ story0 with ident := ['a'], content := ['x'] },
           { story0 with ident := ['a'], content := ['y'] }]⟩

/-- A raw feed result with two stories with distinct idents. -/
def distinctRaw : RawFeedResult :=
  ⟨feed0, [{ story0 with ident := ['a'], content := ['x'] },
           { story0 with ident := ['b'], content := ['y'] }]⟩

/-- Two raw stories whose idents agree on the first 200 characters and differ
only beyond character 200. -/
def tailStoryA : RawStory := { story0 with ident := List.replicate 200 'a' ++ ['a'] }

/-- The second of the two stories differing only beyond character 200. -/
def tailStoryB : RawStory :=
  { story0 with ident := List.replicate 200 'a' ++ ['b'], content := ['d'] }

/-- A concrete sniffer for evaluating the fetch model: every payload is a
supported feed family with a fixed encoding name. -/
def sniffer0 : Sniffer where
  classify := fun _ => (true, some ['r'])
  detect := fun _ => ['u']

/-- A concrete world for evaluating the fetch model: a public url whose
upstream answers with the non-standard status 600, and a relay that reports
upstream status 301. -/
def world0 : World :=
  { url := ['u'], url_private := false, upstream := { status := 600, body := [54, 48, 48] },
    relay := RelayResponse.status 301 [51, 48, 49] }

/-- Default fetch options: no proxy, no private addresses, webpages only. -/
def options0 : FetchOptions :=
  { use_proxy := false, allow_private_address := false, allow_non_webpage := false,
    proxy_configured := false }

/-- Fetch options that allow private addresses and non-webpage payloads, as
in the status passthrough test. -/
def optionsAll : FetchOptions :=
  { use_proxy := false, allow_private_address := true, allow_non_webpage := true,
    proxy_configured := false }

/-- Fetch options going through a configured rss proxy. -/
def proxyOptions : FetchOptions :=
  { use_proxy := true, allow_private_address := true, allow_non_webpage := false,
    proxy_configured := true }

/-- A world identical to world0 except that the url resolves to a private
address. -/
def worldPrivate : World := { world0 with url_private := true }

/-- Whether a story validation outcome is an error naming the given field. -/
def isErrOn (f : SchemaField) : Except SchemaField ParsedStory → Bool
  | Except.error g => if g = f then true else false
  | Except.ok _ => false

/-- The concrete Processor satisfies the helper contracts. -/
theorem trivialProcessor_wf : trivialProcessor.Wf := by
  constructor
  · intro s w
    simp [trivialProcessor]
  · intro u v _
    simp [trivialProcessor]

/-- Looking up the ident just stored finds the stored hash. -/
theorem lookupHash_setHash_self (m : List (Str × Str)) (i h : Str) :
    lookupHash (setHash m i h) i = some h := by
  induction m with
  | nil => simp [setHash, lookupHash]
  | cons kv rest ih =>
    obtain ⟨k, v⟩ := kv
    by_cases hk : k = i
    · simp [setHash, hk, lookupHash]
    · simp [setHash, hk, lookupHash, ih]

/-- Storing a hash for one ident leaves the lookup of any other ident
unchanged. -/
theorem lookupHash_setHash_ne (m : List (Str × Str)) (i j h : Str) (hne : j ≠ i) :
    lookupHash (setHash m i h) j = lookupHash m j := by
  induction m with
  | nil => simp [setHash, lookupHash, Ne.symm hne]
  | cons kv rest ih =>
    obtain ⟨k, v⟩ := kv
    by_cases hk : k = i
    · subst hk
      simp [setHash, lookupHash, Ne.symm hne]
    · simp [setHash, hk, lookupHash, ih]

/-- update on an ident with no stored hash reports new and stores the hash. -/
theorem update_of_lookup_none (c : FeedChecksum) (i x : Str)
    (h : c.lookup i = none) :
    c.update i x = (true, ⟨setHash c.map i (contentHash x)⟩) := by
  unfold FeedChecksum.lookup at h
  simp [FeedChecksum.update, h]

/-- update on an ident whose stored hash equals the content hash reports
unchanged and keeps the checksum as it is. -/
theorem update_of_lookup_hash (c : FeedChecksum) (i x : Str)
    (h : c.lookup i = some (contentHash x)) :
    c.update i x = (false, c) := by
  unfold FeedChecksum.lookup at h
  simp [FeedChecksum.update, h]

/-- When every story ident already stores exactly the hash of its content,
the checksum filter retains nothing and the checksum is unchanged. -/
theorem checkUpdate_all_hit (storys : List RawStory) (c : FeedChecksum)
    (h : ∀ s ∈ storys, c.lookup s.ident = some (contentHash s.content)) :
    checkUpdateStorys c storys = ([], c) := by
  induction storys with
  | nil => rfl
  | cons s rest ih =>
    have hs : c.update s.ident s.content = (false, c) :=
      update_of_lookup_hash c s.ident s.content (h s (by simp))
    have hrest := ih (fun s' hs' => h s' (by simp [hs']))
    simp [checkUpdateStorys, hs, hrest]

/-- When no story ident is present in the checksum and the idents are
pairwise distinct, the checksum filter retains every story, afterwards every
story ident stores the hash of its content, and the stored hash of every
untouched ident is unchanged. -/
theorem checkUpdate_fresh (storys : List RawStory) (c : FeedChecksum)
    (hnone : ∀ s ∈ storys, c.lookup s.ident = none)
    (hnd : (storys.map RawStory.ident).Nodup) :
    (checkUpdateStorys c storys).1 = storys ∧
    (∀ s ∈ storys,
      (checkUpdateStorys c storys).2.lookup s.ident = some (contentHash s.content)) ∧
    (∀ i, (∀ s ∈ storys, s.ident ≠ i) →
      (checkUpdateStorys c storys).2.lookup i = c.lookup i) := by
  induction storys generalizing c with
  | nil => simp [checkUpdateStorys]
  | cons s rest ih =>
    have hs : c.update s.ident s.content =
        (true, ⟨setHash c.map s.ident (contentHash s.content)⟩) :=
      update_of_lookup_none c s.ident s.content (hnone s (by simp))
    rw [List.map_cons] at hnd
    obtain ⟨hhead, hnd1⟩ := List.nodup_cons.mp hnd
    have hne : ∀ s' ∈ rest, s'.ident ≠ s.ident := by
      intro s' hs' heq
      exact hhead (heq ▸ List.mem_map_of_mem RawStory.ident hs')
    have hnone1 : ∀ s' ∈ rest,
        FeedChecksum.lookup ⟨setHash c.map s.ident (contentHash s.content)⟩ s'.ident = none := by
      intro s' hs'
      have : lookupHash (setHash c.map s.ident (contentHash s.content)) s'.ident
          = lookupHash c.map s'.ident :=
        lookupHash_setHash_ne c.map s.ident s'.ident (contentHash s.content) (hne s' hs')
      simpa [FeedChecksum.lookup, this] using hnone s' (by simp [hs'])
    obtain ⟨ih1, ih2, ih3⟩ :=
      ih (⟨setHash c.map s.ident (contentHash s.content)⟩ : FeedChecksum) hnone1 hnd1
    refine ⟨?_, ?_, ?_⟩
    · simp [checkUpdateStorys, hs, ih1]
    · intro s' hs'
      rcases List.mem_cons.mp hs' with heq | hmem
      · subst heq
        have hframe := ih3 s'.ident (fun t ht => hne t ht)
        have hself : FeedChecksum.lookup
            (⟨setHash c.map s'.ident (contentHash s'.content)⟩ : FeedChecksum) s'.ident
            = some (contentHash s'.content) := by
          simp [FeedChecksum.lookup, lookupHash_setHash_self]
        simp [checkUpdateStorys, hs]
        rw [hframe, hself]
      · have := ih2 s' hmem
        simp [checkUpdateStorys, hs]
        exact this
    · intro i hi
      have hframe := ih3 i (fun t ht => hi t (by simp [ht]))
      have hstep : FeedChecksum.lookup
          (⟨setHash c.map s.ident (contentHash s.content)⟩ : FeedChecksum) i = c.lookup i := by
        simp [FeedChecksum.lookup,
          lookupHash_setHash_ne c.map s.ident i (contentHash s.content) (Ne.symm (hi s (by simp)))]
      simp [checkUpdateStorys, hs]
      rw [hframe, hstep]

/-- parse with the validate flag off returns the normalized result and the
advanced checksum directly. -/
theorem parse_no_validate (p : Processor) (c : FeedChecksum) (raw : RawFeedResult) :
    FeedParser.parse p ⟨c, false⟩ raw
      = (Except.ok ⟨parseFeed p raw.feed,
           (checkUpdateStorys c raw.storys).1.map
             (fun s => parseStory p s (parseFeed p raw.feed).url),
           (checkUpdateStorys c raw.storys).2⟩,
         ⟨(checkUpdateStorys c raw.storys).2, false⟩) := rfl

/-- The ident produced by the story normalization is the raw ident truncated
to its first 200 characters. -/
theorem parseStory_ident (p : Processor) (s : RawStory) (u : Str) :
    (parseStory p s u).ident = s.ident.take 200 := rfl

/-- The story normalization keeps at most 200 characters of the ident. -/
theorem parseStory_ident_len (p : Processor) (s : RawStory) (u : Str) :
    (parseStory p s u).ident.length ≤ 200 := by
  rw [parseStory_ident, List.length_take]
  exact Nat.min_le_left 200 s.ident.length

/-- Under the helper contracts, validating a normalized story always succeeds
and only replaces the soft-optional url fields by their validated values. -/
theorem validateStory_parseStory (p : Processor) (hw : p.Wf) (s : RawStory) (u : Str) :
    validateStory p (parseStory p s u)
      = Except.ok
          { parseStory p s u with
            image_url := p.validate_url (parseStory p s u).image_url,
            author_url := p.validate_url (parseStory p s u).author_url,
            author_avatar_url := p.validate_url (parseStory p s u).author_avatar_url } := by
  have hident : ¬ 200 < (parseStory p s u).ident.length :=
    Nat.not_lt.mpr (parseStory_ident_len p s u)
  have htitle : ¬ 200 < (parseStory p s u).title.length := by
    have : (parseStory p s u).title = (p.story_html_to_text s.title).take 200 := rfl
    rw [this, List.length_take]
    exact Nat.not_lt.mpr (Nat.min_le_left 200 _)
  have hsummary : ¬ 300 < (parseStory p s u).summary.length := by
    have : (parseStory p s u).summary
        = p.shorten (p.story_html_to_text (p.story_html_clean s.summary)) 300 := rfl
    rw [this]
    exact Nat.not_lt.mpr (hw.shorten_le _ 300)
  have hname : ¬ 100 < (parseStory p s u).author_name.length := by
    have : (parseStory p s u).author_name = (p.story_html_to_text s.author_name).take 100 := rfl
    rw [this, List.length_take]
    exact Nat.not_lt.mpr (Nat.min_le_left 100 _)
  have hurl : validateOptUrlHard p (parseStory p s u).url = Except.ok (parseStory p s u).url := by
    have hdef : (parseStory p s u).url
        = p.validate_url (p.normlize_url (if s.url = [] then s.ident else s.url) u) := rfl
    cases hv : (parseStory p s u).url with
    | none => simp [validateOptUrlHard, hv]
    | some v =>
      have hstable : p.validate_url (some v) = some v :=
        hw.validate_url_stable _ v (hdef ▸ hv)
      simp [validateOptUrlHard, hv, hstable]
  rw [validateStory]
  simp only [hident, htitle, if_false]
  rw [hurl]
  simp only [hsummary, hname, if_false]

/-- Validating a list of stories that each validate successfully succeeds and
keeps the story count. -/
theorem validateStorys_ok (p : Processor) (l : List ParsedStory)
    (h : ∀ s ∈ l, ∃ v, validateStory p s = Except.ok v) :
    ∀ i, ∃ out, validateStorys p l i = Except.ok out ∧ out.length = l.length := by
  induction l with
  | nil => intro i; exact ⟨[], rfl, rfl⟩
  | cons s rest ih =>
    intro i
    obtain ⟨v, hv⟩ := h s (by simp)
    obtain ⟨out, ho, hl⟩ := ih (fun s' hs' => h s' (by simp [hs'])) (i + 1)
    refine ⟨v :: out, ?_, by simp [hl]⟩
    rw [validateStorys, hv, ho]

/-- Reading an untouched cell after writing another cell gives the old value. -/
theorem getD_set_ne {α : Type} (l : List α) (i j : Nat) (v d : α) (h : i ≠ j) :
    (l.set i v).getD j d = l.getD j d := by
  induction l generalizing i j with
  | nil => simp [List.set]
  | cons a rest ih =>
    cases i with
    | zero =>
      cases j with
      | zero => exact absurd rfl h
      | succ j2 => simp [List.set, List.getD]
    | succ i2 =>
      cases j with
      | zero => simp [List.set, List.getD]
      | succ j2 =>
        simp only [List.set, List.getD_cons_succ]
        exact ih i2 j2 (fun he => h (by rw [he]))

/-- Reading a cell after writing that same valid cell gives the new value. -/
theorem getD_set_self {α : Type} (l : List α) (i : Nat) (v d : α) (h : i < l.length) :
    (l.set i v).getD i d = v := by
  induction l generalizing i with
  | nil => simp at h
  | cons a rest ih =>
    cases i with
    | zero => rfl
    | succ i2 =>
      simp only [List.set, List.getD_cons_succ]
      exact ih i2 (by simpa using h)

/-- Reading the cell appended at the end of the store gives its value. -/
theorem getD_append_self {α : Type} (l : List α) (v d : α) :
    (l ++ [v]).getD l.length d = v := by
  induction l with
  | nil => rfl
  | cons a rest ih => simp [ih]

/-- The hard url check can only report the url field. -/
theorem validateOptUrlHard_error (p : Processor) (u : Option Str) (e : SchemaField)
    (h : validateOptUrlHard p u = Except.error e) : e = SchemaField.url := by
  cases u with
  | none => simp [validateOptUrlHard] at h
  | some v =>
    cases hv : p.validate_url (some v) with
    | none =>
      simp [validateOptUrlHard, hv] at h
      exact h.symm
    | some v2 => simp [validateOptUrlHard, hv] at h

set_option maxRecDepth 20000 in
/-- C1 counterexample: a raw feed whose only story has a 201 character ident,
parsed with validate on, is accepted, and the output ident is the truncation
to 200 characters, not the raw ident. -/
theorem C1_counterexample :
    (((FeedParser.init none true).parse trivialProcessor cexRaw).1.toOption.map
        (fun r => r.storys.map ParsedStory.ident) = some [List.replicate 200 'a'])
    ∧ 200 < cexStory.ident.length := by
  constructor
  · decide
  · decide

/-- C1 amended: a story with an ident longer than 200 characters is not
rejected; FeedParser._parse_story truncates the ident to its first 200
characters, so the schema bound on ident is always met, the validator never
reports the ident field, and the ident is rewritten by normalization whenever
it was longer than 200 characters. -/
theorem C1_ident_truncated_not_rejected (p : Processor) (s : RawStory) (u : Str) :
    (parseStory p s u).ident = s.ident.take 200 ∧
    isErrOn SchemaField.ident (validateStory p (parseStory p s u)) = false := by
  refine ⟨rfl, ?_⟩
  have h1 : ¬ 200 < (parseStory p s u).ident.length :=
    Nat.not_lt.mpr (parseStory_ident_len p s u)
  rw [validateStory, if_neg h1]
  by_cases h2 : 200 < (parseStory p s u).title.length
  · simp [isErrOn, h2]
  · rw [if_neg h2]
    cases hu : validateOptUrlHard p (parseStory p s u).url with
    | error e =>
      have he := validateOptUrlHard_error p _ e hu
      subst he
      simp [isErrOn]
    | ok url =>
      by_cases h3 : 300 < (parseStory p s u).summary.length
      · simp [isErrOn, h3]
      · by_cases h4 : 100 < (parseStory p s u).author_name.length
        · simp [isErrOn, h3, h4]
        · simp [isErrOn, h3, h4]

/-- C10: the checksum filter keys each story by its full raw ident while the
returned story record carries only the first 200 characters of it: for a
story with an ident longer than 200 characters, the output ident differs
from the checksum key, and two raw stories differing only beyond character
200 get distinct checksum entries but identical output idents. -/
theorem C10_checksum_key_vs_output_ident (p : Processor) (f : RawFeed)
    (s1 s2 : RawStory) (h1 : 200 < s1.ident.length) (h2 : s1.ident ≠ s2.ident)
    (h3 : s1.ident.take 200 = s2.ident.take 200) :
    (((FeedParser.init none false).parse p ⟨f, [s1, s2]⟩).1.toOption.map
        (fun r => r.storys.map ParsedStory.ident)
      = some [s1.ident.take 200, s1.ident.take 200]) ∧
    (((FeedParser.init none false).parse p ⟨f, [s1, s2]⟩).1.toOption.map
        (fun r => (r.checksum.lookup s1.ident, r.checksum.lookup s2.ident))
      = some (some (contentHash s1.content), some (contentHash s2.content))) ∧
    s1.ident.take 200 ≠ s1.ident := by
  have hnone : ∀ s ∈ [s1, s2], FeedChecksum.empty.lookup s.ident = none := by
    intro s _
    rfl
  have hnd : (([s1, s2]).map RawStory.ident).Nodup := by
    simp [h2]
  obtain ⟨hr, hl, _⟩ := checkUpdate_fresh [s1, s2] FeedChecksum.empty hnone hnd
  have hinit : FeedParser.init none false = (⟨FeedChecksum.empty, false⟩ : FeedParser) := rfl
  rw [hinit, parse_no_validate]
  refine ⟨?_, ?_, ?_⟩
  · simp [Except.toOption, hr, parseStory_ident, h3]
  · have e1 := hl s1 (by simp)
    have e2 := hl s2 (by simp)
    simp [Except.toOption, e1, e2]
  · intro he
    have hlen := congrArg List.length he
    rw [List.length_take, Nat.min_eq_left h1.le] at hlen
    exact absurd hlen (Nat.ne_of_lt h1)

/-- C7: when the cleaned story content exceeds the 1 MiB ceiling it is
downgraded to plain text and the size warning is logged, and below the
ceiling the sanitized content is kept with no warning; in both cases
processing continues through the link rewriting, never failing. -/
theorem C7_oversize_content_downgrade (p : Processor) (content link : Str) :
    (1024 * 1024 < (p.story_html_clean content).length →
      processContent p content link
        = (p.process_story_links (p.story_html_to_text (p.story_html_clean content)) link,
           true)) ∧
    ((p.story_html_clean content).length < 1024 * 1024 →
      processContent p content link
        = (p.process_story_links (p.story_html_clean content) link, false)) := by
  constructor
  · intro h
    have hle : 1024 * 1024 ≤ (p.story_html_clean content).length := Nat.le_of_lt h
    simp [processContent, hle]
  · intro h
    have hnot : ¬ 1024 * 1024 ≤ (p.story_html_clean content).length := Nat.not_le.mpr h
    simp [processContent, hnot]

/-- C7 witness: the downgrade branch at a cleaned content one character over
the 1 MiB ceiling, and the keep branch at a one character content. -/
theorem C7_oversize_witness :
    processContent trivialProcessor (List.replicate (1024 * 1024 + 1) 'a') []
        = (List.replicate (1024 * 1024 + 1) 'a', true) ∧
    processContent trivialProcessor ['x'] [] = (['x'], false) := by
  constructor
  · refine (C7_oversize_content_downgrade trivialProcessor _ []).1 ?_
    show 1024 * 1024 < (List.replicate (1024 * 1024 + 1) 'a').length
    rw [List.length_replicate]
    omega
  · refine (C7_oversize_content_downgrade trivialProcessor ['x'] []).2 ?_
    show ([('x' : Char)]).length < 1024 * 1024
    simp

set_option maxRecDepth 40000 in
/-- C10 witness at two stories whose 201 character idents differ only in the
last character. -/
theorem C10_checksum_key_witness :
    (((FeedParser.init none false).parse trivialProcessor
          ⟨feed0, [tailStoryA, tailStoryB]⟩).1.toOption.map
        (fun r => r.storys.map ParsedStory.ident)
      = some [tailStoryA.ident.take 200, tailStoryA.ident.take 200]) ∧
    (((FeedParser.init none false).parse trivialProcessor
          ⟨feed0, [tailStoryA, tailStoryB]⟩).1.toOption.map
        (fun r => (r.checksum.lookup tailStoryA.ident, r.checksum.lookup tailStoryB.ident))
      = some (some (contentHash tailStoryA.content), some (contentHash tailStoryB.content))) ∧
    tailStoryA.ident.take 200 ≠ tailStoryA.ident :=
  C10_checksum_key_vs_output_ident trivialProcessor feed0 tailStoryA tailStoryB
    (by decide) (by decide) (by decide)

/-- C2 counterexample: with two stories sharing one ident but with different
contents, parsing the same raw feed twice through the same parser retains
both stories again on the second parse, not an empty set. -/
theorem C2_counterexample :
    ((((FeedParser.init none false).parse trivialProcessor dupIdentRaw).2.parse
        trivialProcessor dupIdentRaw).1.toOption.map (fun r => r.storys.length))
      = some 2 := by
  decide

/-- C2 amended: for a raw feed whose stories have pairwise distinct idents,
a parse from a fresh empty checksum retains every story, and parsing the same
raw feed again through the same parser, whose internal checksum carried
forward without being reset, retains nothing. -/
theorem C2_distinct_idents_checksum_filter (p : Processor) (raw : RawFeedResult)
    (h : (raw.storys.map RawStory.ident).Nodup) :
    (((FeedParser.init none false).parse p raw).1.toOption.map
        (fun r => r.storys.length) = some raw.storys.length) ∧
    ((((FeedParser.init none false).parse p raw).2.parse p raw).1.toOption.map
        (fun r => r.storys.length) = some 0) := by
  have hnone : ∀ s ∈ raw.storys, FeedChecksum.empty.lookup s.ident = none :=
    fun s _ => rfl
  obtain ⟨hr, hl, _⟩ := checkUpdate_fresh raw.storys FeedChecksum.empty hnone h
  have hinit : FeedParser.init none false = (⟨FeedChecksum.empty, false⟩ : FeedParser) := rfl
  rw [hinit, parse_no_validate]
  constructor
  · simp [Except.toOption, hr]
  · rw [parse_no_validate]
    have hhit : checkUpdateStorys (checkUpdateStorys FeedChecksum.empty raw.storys).2 raw.storys
        = ([], (checkUpdateStorys FeedChecksum.empty raw.storys).2) :=
      checkUpdate_all_hit raw.storys _ hl
    simp [Except.toOption, hhit]

/-- C2 witness at a raw feed with two stories with distinct idents. -/
theorem C2_distinct_idents_witness :
    (((FeedParser.init none false).parse trivialProcessor distinctRaw).1.toOption.map
        (fun r => r.storys.length) = some distinctRaw.storys.length) ∧
    ((((FeedParser.init none false).parse trivialProcessor distinctRaw).2.parse
        trivialProcessor distinctRaw).1.toOption.map
        (fun r => r.storys.length) = some 0) :=
  C2_distinct_idents_checksum_filter trivialProcessor distinctRaw (by decide)

/-- The result component of a validating parse is the validation of the
normalized result. -/
theorem parse_validate_fst (p : Processor) (c : FeedChecksum) (raw : RawFeedResult) :
    (FeedParser.parse p ⟨c, true⟩ raw).1
      = validateResult p
          ⟨parseFeed p raw.feed,
           (checkUpdateStorys c raw.storys).1.map
             (fun s => parseStory p s (parseFeed p raw.feed).url),
           (checkUpdateStorys c raw.storys).2⟩ := by
  cases h : validateResult p
      ⟨parseFeed p raw.feed,
       (checkUpdateStorys c raw.storys).1.map
         (fun s => parseStory p s (parseFeed p raw.feed).url),
       (checkUpdateStorys c raw.storys).2⟩ with
  | ok r => simp [FeedParser.parse, h]
  | error e => simp [FeedParser.parse, h]

/-- C8: for every story, the url is normalized with fallback to the ident
when the raw url is blank and then validated, with an invalid url becoming an
absent field; the story still passes validation with its soft-optional
author_url defaulted through validate_url (absent when invalid); and a
validating parse on a feed that passes feed validation succeeds, keeping
every retained story. -/
theorem C8_story_url_soft_degradation (p : Processor) (hw : p.Wf) (c : FeedChecksum)
    (raw : RawFeedResult) (s : RawStory) (u : Str)
    (hf : (validateFeed p (parseFeed p raw.feed)).toOption.isSome = true) :
    ((parseStory p s u).url
      = p.validate_url (p.normlize_url (if s.url = [] then s.ident else s.url) u)) ∧
    ((validateStory p (parseStory p s u)).toOption.map ParsedStory.author_url
      = some (p.validate_url (parseStory p s u).author_url)) ∧
    (((FeedParser.init (some c) true).parse p raw).1.toOption.map
        (fun r => r.storys.length)
      = some (checkUpdateStorys c raw.storys).1.length) := by
  refine ⟨rfl, ?_, ?_⟩
  · rw [validateStory_parseStory p hw s u]
    simp [Except.toOption]
  · obtain ⟨vf, hvf⟩ : ∃ vf, validateFeed p (parseFeed p raw.feed) = Except.ok vf := by
      cases hcase : validateFeed p (parseFeed p raw.feed) with
      | ok vf => exact ⟨vf, rfl⟩
      | error e => rw [hcase] at hf; simp [Except.toOption] at hf
    have hstorys : ∀ s' ∈ (checkUpdateStorys c raw.storys).1.map
        (fun t => parseStory p t (parseFeed p raw.feed).url),
        ∃ v, validateStory p s' = Except.ok v := by
      intro s' hs'
      obtain ⟨t, ht, rfl⟩ := List.mem_map.mp hs'
      exact ⟨_, validateStory_parseStory p hw t _⟩
    obtain ⟨out, ho, hlen⟩ := validateStorys_ok p _ hstorys 0
    have hinit : FeedParser.init (some c) true = (⟨c, true⟩ : FeedParser) := rfl
    rw [hinit, parse_validate_fst]
    simp [validateResult, hvf, ho, Except.toOption, hlen]

/-- C8 witness at a story with a blank raw url and an all-accepting url
validator, inside a raw feed whose feed record validates. -/
theorem C8_story_url_witness :
    ((parseStory trivialProcessor story0 ['u']).url
      = trivialProcessor.validate_url
          (trivialProcessor.normlize_url
            (if story0.url = [] then story0.ident else story0.url) ['u'])) ∧
    ((validateStory trivialProcessor
        (parseStory trivialProcessor story0 ['u'])).toOption.map ParsedStory.author_url
      = some (trivialProcessor.validate_url
          (parseStory trivialProcessor story0 ['u']).author_url)) ∧
    (((FeedParser.init (some FeedChecksum.empty) true).parse trivialProcessor
          distinctRaw).1.toOption.map (fun r => r.storys.length)
      = some (checkUpdateStorys FeedChecksum.empty distinctRaw.storys).1.length) :=
  C8_story_url_soft_degradation trivialProcessor trivialProcessor_wf FeedChecksum.empty
    distinctRaw story0 ['u'] (by decide)

/-- The parser state after a parse carries the advanced checksum, whether or
not validation was requested or succeeded. -/
theorem parse_snd (p : Processor) (c : FeedChecksum) (val : Bool) (raw : RawFeedResult) :
    (FeedParser.parse p ⟨c, val⟩ raw).2
      = (⟨(checkUpdateStorys c raw.storys).2, val⟩ : FeedParser) := by
  cases val with
  | false => rfl
  | true =>
    cases h : validateResult p
        ⟨parseFeed p raw.feed,
         (checkUpdateStorys c raw.storys).1.map
           (fun s => parseStory p s (parseFeed p raw.feed).url),
         (checkUpdateStorys c raw.storys).2⟩ with
    | ok r => simp [FeedParser.parse, h]
    | error e => simp [FeedParser.parse, h]

/-- Validation keeps the checksum of its input result. -/
theorem validateResult_checksum (p : Processor) (r r2 : FeedResult)
    (h : validateResult p r = Except.ok r2) : r2.checksum = r.checksum := by
  unfold validateResult at h
  cases hf : validateFeed p r.feed with
  | error e => rw [hf] at h; simp at h
  | ok vf =>
    rw [hf] at h
    cases hs : validateStorys p r.storys 0 with
    | error e => rw [hs] at h; simp at h
    | ok vs =>
      rw [hs] at h
      cases h
      rfl

/-- The checksum inside a successful parse result is exactly the advanced
checksum of the parser state handed back by that parse. -/
theorem parse_checksum_eq (p : Processor) (fp : FeedParser) (raw : RawFeedResult) :
    ((FeedParser.parse p fp raw).1).toOption.map FeedResult.checksum
      = ((FeedParser.parse p fp raw).1).toOption.map
          (fun _ => (FeedParser.parse p fp raw).2.checksum) := by
  obtain ⟨c, val⟩ := fp
  cases val with
  | false => rw [parse_no_validate]; simp [Except.toOption]
  | true =>
    rw [parse_validate_fst, parse_snd]
    cases h : validateResult p
        ⟨parseFeed p raw.feed,
         (checkUpdateStorys c raw.storys).1.map
           (fun s => parseStory p s (parseFeed p raw.feed).url),
         (checkUpdateStorys c raw.storys).2⟩ with
    | error e => simp [Except.toOption]
    | ok r =>
      have := validateResult_checksum p _ r h
      simp [Except.toOption, this]

/-- Unfolding of initParserObj on a present checksum cell: the argument cell
value is copied and the copy is stored in a freshly allocated cell. -/
theorem initParserObj_some (st : Store) (c : CellId) (v : Bool) :
    initParserObj st (some c) v
      = (st ++ [(Store.readCell st c).copy], (⟨st.length, v⟩ : ParserObj)) := rfl

/-- Unfolding of parseObj: get the private cell value, run the pure parse,
and write the advanced checksum back to the private cell. -/
theorem parseObj_eq (p : Processor) (st : Store) (cell : CellId) (v : Bool)
    (raw : RawFeedResult) :
    parseObj p st ⟨cell, v⟩ raw
      = (Store.writeCell st cell
           (FeedParser.parse p ⟨Store.readCell st cell, v⟩ raw).2.checksum,
         (FeedParser.parse p ⟨Store.readCell st cell, v⟩ raw).1) := rfl

/-- Frame property of the store: writing the freshly allocated cell does not
change any cell of the original store. -/
theorem store_frame (st : Store) (c : CellId) (h : c < st.length) (x w : FeedChecksum) :
    Store.readCell (Store.writeCell (st ++ [x]) st.length w) c = Store.readCell st c := by
  unfold Store.readCell Store.writeCell
  rw [getD_set_ne _ _ _ _ _ (Ne.symm (Nat.ne_of_lt h))]
  exact List.getD_append _ _ _ _ h

/-- Reading the freshly allocated cell after writing it gives the written
value. -/
theorem store_read_written (st : Store) (x w : FeedChecksum) :
    Store.readCell (Store.writeCell (st ++ [x]) st.length w) st.length = w := by
  unfold Store.readCell Store.writeCell
  exact getD_set_self _ _ _ _ (by simp)

/-- Reading the freshly allocated cell gives the allocated value. -/
theorem store_read_alloc (st : Store) (x : FeedChecksum) :
    Store.readCell (st ++ [x]) st.length = x := getD_append_self st x _

/-- C3: a parser constructed from a checksum object never mutates it: after
init and parse, the caller cell holds its original value; the checksum
handed back inside the FeedResult is the value of the parser private cell,
the advanced copy; and a second parser constructed from the same cell parses
exactly as it would have if the first parse had never happened. -/
theorem C3_checksum_isolation (p : Processor) (st : Store) (c : CellId) (v : Bool)
    (raw raw2 : RawFeedResult) (h : c < st.length)
    (st1 : Store) (po : ParserObj) (hinit : initParserObj st (some c) v = (st1, po))
    (st2 : Store) (res : Except FPError FeedResult)
    (hparse : parseObj p st1 po raw = (st2, res)) :
    (Store.readCell st2 c = Store.readCell st c) ∧
    (res.toOption.map FeedResult.checksum
      = res.toOption.map (fun _ => Store.readCell st2 po.cell)) ∧
    ((parseObj p (initParserObj st2 (some c) v).1 (initParserObj st2 (some c) v).2 raw2).2
      = (parseObj p st1 po raw2).2) := by
  rw [initParserObj_some] at hinit
  obtain ⟨h1, h2⟩ := Prod.mk.injEq .. |>.mp hinit
  subst h1
  subst h2
  rw [parseObj_eq] at hparse
  obtain ⟨h1, h2⟩ := Prod.mk.injEq .. |>.mp hparse
  subst h1
  subst h2
  refine ⟨store_frame st c h _ _, ?_, ?_⟩
  · rw [store_read_written, store_read_alloc]
    exact parse_checksum_eq p _ raw
  · rw [initParserObj_some, parseObj_eq, parseObj_eq]
    rw [store_read_alloc, store_read_alloc, store_frame st c h]

/-- C3 witness on a one cell store holding an empty checksum, parsed over two
concrete raw feeds. -/
theorem C3_checksum_isolation_witness :
    (Store.readCell (parseObj trivialProcessor
        (initParserObj [FeedChecksum.empty] (some 0) false).1
        (initParserObj [FeedChecksum.empty] (some 0) false).2 distinctRaw).1 0
      = Store.readCell [FeedChecksum.empty] 0) ∧
    ((parseObj trivialProcessor
        (initParserObj [FeedChecksum.empty] (some 0) false).1
        (initParserObj [FeedChecksum.empty] (some 0) false).2 distinctRaw).2.toOption.map
        FeedResult.checksum
      = (parseObj trivialProcessor
          (initParserObj [FeedChecksum.empty] (some 0) false).1
          (initParserObj [FeedChecksum.empty] (some 0) false).2 distinctRaw).2.toOption.map
          (fun _ => Store.readCell
            (parseObj trivialProcessor
              (initParserObj [FeedChecksum.empty] (some 0) false).1
              (initParserObj [FeedChecksum.empty] (some 0) false).2 distinctRaw).1
            (initParserObj [FeedChecksum.empty] (some 0) false).2.cell)) ∧
    ((parseObj trivialProcessor
        (initParserObj (parseObj trivialProcessor
            (initParserObj [FeedChecksum.empty] (some 0) false).1
            (initParserObj [FeedChecksum.empty] (some 0) false).2 distinctRaw).1 (some 0) false).1
        (initParserObj (parseObj trivialProcessor
            (initParserObj [FeedChecksum.empty] (some 0) false).1
            (initParserObj [FeedChecksum.empty] (some 0) false).2 distinctRaw).1 (some 0) false).2
        dupIdentRaw).2
      = (parseObj trivialProcessor
          (initParserObj [FeedChecksum.empty] (some 0) false).1
          (initParserObj [FeedChecksum.empty] (some 0) false).2 dupIdentRaw).2) :=
  C3_checksum_isolation trivialProcessor [FeedChecksum.empty] 0 false distinctRaw dupIdentRaw
    (by decide) _ _ rfl _ _ rfl

/-- C4: on a url resolving to a private address, with the proxy not in use,
FeedReader.read returns the private address error with empty content and sends no
request; with allow_private_address set, the fetch instead proceeds exactly
as it would for a non private address. -/
theorem C4_private_address_guard (sn : Sniffer) (w : World) (o : FetchOptions)
    (hp : w.url_private = true) (hu : o.use_proxy = false) :
    ((FeedReader.read sn w { o with allow_private_address := false }).1.status
        = StatusCode.privateAddressError ∧
     (FeedReader.read sn w { o with allow_private_address := false }).1.content = [] ∧
     (FeedReader.read sn w { o with allow_private_address := false }).2 = []) ∧
    (FeedReader.read sn w { o with allow_private_address := true }
      = FeedReader.read sn { w with url_private := false } { o with allow_private_address := true }) := by
  constructor
  · simp [FeedReader.read, hp, hu]
  · simp [FeedReader.read, hp, hu]

/-- C4 witness at the concrete private address world. -/
theorem C4_private_address_witness :
    ((FeedReader.read sniffer0 worldPrivate { options0 with allow_private_address := false }).1.status
        = StatusCode.privateAddressError ∧
     (FeedReader.read sniffer0 worldPrivate { options0 with allow_private_address := false }).1.content = [] ∧
     (FeedReader.read sniffer0 worldPrivate { options0 with allow_private_address := false }).2 = []) ∧
    (FeedReader.read sniffer0 worldPrivate { options0 with allow_private_address := true }
      = FeedReader.read sniffer0 { worldPrivate with url_private := false }
          { options0 with allow_private_address := true }) :=
  C4_private_address_guard sniffer0 worldPrivate options0 rfl rfl

/-- C5: when no proxy is used, the address guard passes or is waived, and the
payload type is accepted or waived, FeedReader.read returns the exact upstream status
code, standard or not, with the upstream body bytes unmodified. -/
theorem C5_status_passthrough (sn : Sniffer) (w : World) (o : FetchOptions)
    (h1 : o.use_proxy = false)
    (h2 : w.url_private = true → o.allow_private_address = true)
    (h3 : (sn.classify w.upstream.body).1 = false → o.allow_non_webpage = true) :
    (FeedReader.read sn w o).1.status = StatusCode.http w.upstream.status ∧
    (FeedReader.read sn w o).1.content = w.upstream.body := by
  have hm : (w.url_private && !o.allow_private_address) = false := by
    cases hw : w.url_private with
    | false => simp
    | true => simp [h2 hw]
  have hc : (!(sn.classify w.upstream.body).1 && !o.allow_non_webpage) = false := by
    cases hs : (sn.classify w.upstream.body).1 with
    | false => simp [h3 hs]
    | true => simp
  constructor
  · simp [FeedReader.read, h1, hm, hc]
  · simp [FeedReader.read, h1, hm, hc]

/-- C5 witness at the non-standard upstream status 600 with body bytes 600. -/
theorem C5_status_passthrough_witness :
    (FeedReader.read sniffer0 world0 optionsAll).1.status = StatusCode.http 600 ∧
    (FeedReader.read sniffer0 world0 optionsAll).1.content = [54, 48, 48] :=
  C5_status_passthrough sniffer0 world0 optionsAll rfl (fun _ => rfl) (fun _ => rfl)

/-- C6: through a configured proxy, a relay envelope carrying the ERROR
marker yields the rss proxy error with empty content, discarding the relay
body; a relay envelope carrying a numeric status yields exactly that status
code with the relay supplied body as content. -/
theorem C6_rss_proxy_outcome (sn : Sniffer) (w : World) (o : FetchOptions)
    (d : Bytes) (n : Nat) (b : Bytes)
    (hp : o.use_proxy = true) (hc : o.proxy_configured = true)
    (hb : (sn.classify b).1 = true ∨ o.allow_non_webpage = true) :
    ((FeedReader.read sn { w with relay := RelayResponse.error d } o).1.status
        = StatusCode.rssProxyError ∧
     (FeedReader.read sn { w with relay := RelayResponse.error d } o).1.content = []) ∧
    ((FeedReader.read sn { w with relay := RelayResponse.status n b } o).1.status
        = StatusCode.http n ∧
     (FeedReader.read sn { w with relay := RelayResponse.status n b } o).1.content = b) := by
  have hcond : (!(sn.classify b).1 && !o.allow_non_webpage) = false := by
    rcases hb with hb | hb
    · simp [hb]
    · simp [hb]
  constructor
  · constructor
    · simp [FeedReader.read, hp, hc]
    · simp [FeedReader.read, hp, hc]
  · constructor
    · simp [FeedReader.read, hp, hc, hcond]
    · simp [FeedReader.read, hp, hc, hcond]

/-- C6 witness with relay diagnostic bytes and a relay-reported status 404. -/
theorem C6_rss_proxy_witness :
    ((FeedReader.read sniffer0 { world0 with relay := RelayResponse.error [101] } proxyOptions).1.status
        = StatusCode.rssProxyError ∧
     (FeedReader.read sniffer0 { world0 with relay := RelayResponse.error [101] } proxyOptions).1.content
        = []) ∧
    ((FeedReader.read sniffer0 { world0 with relay := RelayResponse.status 404 [52] } proxyOptions).1.status
        = StatusCode.http 404 ∧
     (FeedReader.read sniffer0 { world0 with relay := RelayResponse.status 404 [52] } proxyOptions).1.content
        = [52]) :=
  C6_rss_proxy_outcome sniffer0 world0 proxyOptions [101] 404 [52] rfl rfl (Or.inl rfl)

/-- C9: for every world and option set, the suspend-capable interpretation of
the fetch computation, resumed across its I/O boundaries, terminates with
exactly the FetchResponse of the blocking FeedReader.read, and so does the blocking
interpretation of the same computation. -/
theorem C9_sync_async_equivalence (sn : Sniffer) (w : World) (o : FetchOptions) :
    runAsync w 3 (readProg sn w.url o) = some (FeedReader.read sn w o).1 ∧
    runSync w (readProg sn w.url o) = (FeedReader.read sn w o).1 := by
  cases h1 : (o.use_proxy && o.proxy_configured) with
  | true =>
    cases hr : w.relay with
    | error d =>
      constructor
      · simp [readProg, FeedReader.read, runAsync, stepFetch, h1, hr]
      · simp [readProg, FeedReader.read, runSync, stepFetch, h1, hr]
    | status nn bb =>
      by_cases hcc : ((sn.classify bb).1 = false ∧ o.allow_non_webpage = false)
      · constructor
        · simp [readProg, FeedReader.read, runAsync, stepFetch, h1, hr, hcc]
        · simp [readProg, FeedReader.read, runSync, stepFetch, h1, hr, hcc]
      · constructor
        · simp [readProg, FeedReader.read, runAsync, stepFetch, h1, hr, hcc]
        · simp [readProg, FeedReader.read, runSync, stepFetch, h1, hr, hcc]
  | false =>
    by_cases hpriv : (w.url_private = true ∧ o.allow_private_address = false)
    · constructor
      · simp [readProg, FeedReader.read, runAsync, stepFetch, h1, hpriv]
      · simp [readProg, FeedReader.read, runSync, stepFetch, h1, hpriv]
    · by_cases hcc : ((sn.classify w.upstream.body).1 = false ∧ o.allow_non_webpage = false)
      · constructor
        · simp [readProg, FeedReader.read, runAsync, stepFetch, h1, hpriv, hcc]
        · simp [readProg, FeedReader.read, runSync, stepFetch, h1, hpriv, hcc]
      · constructor
        · simp [readProg, FeedReader.read, runAsync, stepFetch, h1, hpriv, hcc]
        · simp [readProg, FeedReader.read, runSync, stepFetch, h1, hpriv, hcc]
